import Mathlib

/-!
Shallow embedding of the appointment lifecycle and notification
orchestration engine of the ai-receptionist repository.

Sources embedded:
- server/storage.ts (MemStorage / DatabaseStorage appointment store operations)
- server/reminder-scheduler.ts (sendAppointmentReminder,
  scheduleRemindersForUpcomingAppointments)
- server/routes.ts (chat and SMS intent handling, confirm-payment and
  cancel endpoints)

Timestamps are modelled as integer milliseconds since the epoch, as
returned by Date.getTime in the source. External collaborators (email
transport, Twilio SMS transport, JS date parsing for the sweep filter)
are modelled by an explicit environment record.
-/

namespace AIReceptionist

/-- An appointment record, after shared/schema.ts. `createdAt` and
`lastReminderSentAt` are epoch milliseconds; optional text columns are
`Option String`. -/
structure Appointment where
  id : String
  conversationId : Option String
  customerName : String
  customerEmail : Option String
  customerPhone : Option String
  service : String
  date : String
  time : String
  status : String
  amountCents : Int
  paymentStatus : String
  notes : Option String
  lastReminderSentAt : Option Int
  createdAt : Int
  deriving Repr, DecidableEq

/-- A conversation record, after shared/schema.ts (the fields the
embedded routes touch). -/
structure Conversation where
  id : String
  status : String
  sentiment : String
  intent : String
  customerName : Option String
  customerEmail : Option String
  customerPhone : Option String
  deriving Repr, DecidableEq

/-- storage.getAppointment: look the appointment up by id. -/
def getAppointment (store : List Appointment) (id : String) : Option Appointment :=
  store.find? (fun a => a.id == id)

/-- storage.updateAppointment: if the id is present, merge the update
into the stored record and return the updated record; otherwise leave
the store unchanged and return none (undefined in the source). The
partial update object is modelled as a function merging fields. -/
def updateAppointment (store : List Appointment) (id : String)
    (f : Appointment → Appointment) : List Appointment × Option Appointment :=
  match store.find? (fun a => a.id == id) with
  | none => (store, none)
  | some a => (store.map (fun b => if b.id == id then f b else b), some (f a))

/-- The external-collaborator environment: per-appointment email and SMS
transport outcomes (true = the send call succeeds), whether the Twilio
client and from-number are configured, and the JS date predicate
`new Date(apt.date).toDateString() === tomorrow.toDateString()` used by
the sweep filter. -/
structure Env where
  emailOk : String → Bool
  smsOk : String → Bool
  twilioConfigured : Bool
  isDueTomorrow : String → Bool

/-- Observable events of the reminder path: the optimistic claim write of
`lastReminderSentAt`, and a delivery attempt on each outbound channel. -/
inductive RemEvent where
  | claimWrite (id : String)
  | emailAttempt (id : String)
  | smsAttempt (id : String)
  deriving Repr, DecidableEq

/-- Errors thrown by sendAppointmentReminder in the source. -/
inductive RemError where
  | notFound (id : String)
  | deliveryFailed (channels : Nat)
  deriving Repr, DecidableEq

/-- Result of one sendAppointmentReminder call: the thrown-or-normal
result, the store after the call (writes persist even when the call
throws), the ordered trace of events, and the collected deliveryErrors
(tagged by channel). -/
structure RemOutcome where
  result : Except RemError Unit
  store : List Appointment
  events : List RemEvent
  errors : List String
  deriving Repr

/-- The 12-hour idempotency cooldown, in milliseconds
(`hoursSinceLastReminder < 12` over millisecond differences). -/
def cooldownMs : Int := 12 * 60 * 60 * 1000

/-- The email attempt of the reminder delivery block: the send call runs
exactly when customerEmail is set. -/
def emailEvents (appointmentId : String) (appointment : Appointment) : List RemEvent :=
  match appointment.customerEmail with
  | some _ => [RemEvent.emailAttempt appointmentId]
  | none => []

/-- The caught email error of the reminder delivery block. -/
def emailErrors (env : Env) (appointmentId : String) (appointment : Appointment) :
    List String :=
  match appointment.customerEmail with
  | some _ => if env.emailOk appointmentId then [] else ["email"]
  | none => []

/-- The SMS attempt of the reminder delivery block: the send call runs
exactly when customerPhone is set and the Twilio client and from-number
are configured. -/
def smsEvents (env : Env) (appointmentId : String) (appointment : Appointment) :
    List RemEvent :=
  match appointment.customerPhone with
  | some _ => if env.twilioConfigured then [RemEvent.smsAttempt appointmentId] else []
  | none => []

/-- The caught SMS error of the reminder delivery block. -/
def smsErrors (env : Env) (appointmentId : String) (appointment : Appointment) :
    List String :=
  match appointment.customerPhone with
  | some _ =>
    if env.twilioConfigured then
      (if env.smsOk appointmentId then [] else ["sms"])
    else []
  | none => []

/-- The claim-and-deliver tail of sendAppointmentReminder: write
`lastReminderSentAt = now` first, then attempt email when customerEmail
is set, then SMS when customerPhone is set and Twilio is configured;
each channel failure is caught and pushed onto deliveryErrors; throw an
aggregate error iff deliveryErrors is nonempty. -/
def remDeliver (env : Env) (store : List Appointment) (now : Int)
    (appointmentId : String) (appointment : Appointment) : RemOutcome :=
  if (emailErrors env appointmentId appointment ++
      smsErrors env appointmentId appointment).isEmpty then
    ⟨Except.ok (),
     (updateAppointment store appointmentId
       (fun a => { a with lastReminderSentAt := some now })).1,
     RemEvent.claimWrite appointmentId ::
       (emailEvents appointmentId appointment ++ smsEvents env appointmentId appointment),
     emailErrors env appointmentId appointment ++ smsErrors env appointmentId appointment⟩
  else
    ⟨Except.error (RemError.deliveryFailed
       (emailErrors env appointmentId appointment ++
        smsErrors env appointmentId appointment).length),
     (updateAppointment store appointmentId
       (fun a => { a with lastReminderSentAt := some now })).1,
     RemEvent.claimWrite appointmentId ::
       (emailEvents appointmentId appointment ++ smsEvents env appointmentId appointment),
     emailErrors env appointmentId appointment ++ smsErrors env appointmentId appointment⟩

/-- sendAppointmentReminder (server/reminder-scheduler.ts): fetch the
appointment; missing id throws; cancelled or completed status returns as
a normal skip; a lastReminderSentAt less than 12 hours old returns as a
normal skip; otherwise claim and deliver via `remDeliver`. -/
def sendAppointmentReminder (env : Env) (store : List Appointment) (now : Int)
    (appointmentId : String) : RemOutcome :=
  match getAppointment store appointmentId with
  | none => ⟨Except.error (RemError.notFound appointmentId), store, [], []⟩
  | some appointment =>
    if appointment.status == "cancelled" || appointment.status == "completed" then
      ⟨Except.ok (), store, [], []⟩
    else
      match appointment.lastReminderSentAt with
      | some lastSent =>
        if now - lastSent < cooldownMs then
          ⟨Except.ok (), store, [], []⟩
        else
          remDeliver env store now appointmentId appointment
      | none => remDeliver env store now appointmentId appointment

/-- The sweep filter (scheduleRemindersForUpcomingAppointments): keep
appointments that are neither cancelled nor completed and whose date
parses to the calendar day after now. -/
def dueAppointments (env : Env) (store : List Appointment) : List Appointment :=
  store.filter (fun apt =>
    !(apt.status == "cancelled" || apt.status == "completed") && env.isDueTomorrow apt.date)

/-- The sweep loop body: call sendAppointmentReminder for each due
appointment in order, catching any thrown error so the loop continues;
record the per-appointment result and append the event traces. -/
def runSweepAux (env : Env) (now : Int) :
    List Appointment → List Appointment →
    List Appointment × List (String × Except RemError Unit) × List RemEvent
  | store, [] => (store, [], [])
  | store, apt :: rest =>
    let out := sendAppointmentReminder env store now apt.id
    let tail := runSweepAux env now out.store rest
    (tail.1, (apt.id, out.result) :: tail.2.1, out.events ++ tail.2.2)

/-- scheduleRemindersForUpcomingAppointments: fetch all appointments
once, filter to those due tomorrow, then loop over them with a
per-appointment catch. The function itself throws nothing: its result
type carries no error. -/
def scheduleRemindersForUpcomingAppointments (env : Env) (store : List Appointment)
    (now : Int) :
    List Appointment × List (String × Except RemError Unit) × List RemEvent :=
  runSweepAux env now store (dueAppointments env store)

/-- Entities extracted by the Intent Resolver (routes.ts
aiResponse.extractedEntities). -/
structure Entities where
  name : Option String
  email : Option String
  phone : Option String
  service : Option String
  date : Option String
  time : Option String
  deriving Repr, DecidableEq

/-- ASCII lowercase of one character, after JS toLowerCase on the
inputs the routes compare (names and email addresses). -/
def lowerChar (c : Char) : Char :=
  if 65 ≤ c.toNat ∧ c.toNat ≤ 90 then Char.ofNat (c.toNat + 32) else c

/-- ASCII lowercase of a string (JS String.prototype.toLowerCase as
used by the lookup comparisons). -/
def strLower (s : String) : String :=
  String.mk (s.data.map lowerChar)

/-- The customer-lookup predicate of the chat reschedule and cancel
branches (routes.ts): status not cancelled and not completed, and
case-insensitive name match, or email match when the entity email is
present, or exact phone match when the entity phone is present. -/
def matchesCustomer (e : Entities) (apt : Appointment) : Bool :=
  !(apt.status == "cancelled") && !(apt.status == "completed") &&
  ((match e.name with
    | some n => strLower apt.customerName == strLower n
    | none => false) ||
   (match e.email with
    | some em =>
      (match apt.customerEmail with
       | some ae => strLower ae == strLower em
       | none => false)
    | none => false) ||
   (match e.phone with
    | some p => apt.customerPhone == some p
    | none => false))

/-- Outbound notification requests fired by the route handlers. -/
inductive Notif where
  | confirmationSms (apt : Appointment)
  | confirmationEmail (apt : Appointment)
  | cancellationSms (apt : Appointment)
  | cancellationEmail (apt : Appointment)
  | mailchimpSync (apt : Appointment)
  deriving Repr, DecidableEq

/-- The chat reschedule branch (routes.ts, /api/chat, intent
"reschedule"): requires an extracted name; looks the customer up with
`find` over getAllAppointments (the DatabaseStorage ordering is handled
at the theorems); when a match and both date and time are present,
updates date/time/service, re-reads the appointment, and fires SMS,
email and directory-sync requests with the refreshed record; otherwise
no mutation and no requests. -/
def chatReschedule (e : Entities) (appts : List Appointment) :
    List Appointment × List Notif :=
  match e.name with
  | none => (appts, [])
  | some _ =>
    match appts.find? (matchesCustomer e) with
    | none => (appts, [])
    | some customerAppointment =>
      match e.date, e.time with
      | some d, some t =>
        let appts2 := (updateAppointment appts customerAppointment.id (fun a =>
          { a with date := d, time := t,
                   service := e.service.getD customerAppointment.service })).1
        match getAppointment appts2 customerAppointment.id with
        | some refreshed =>
          (appts2, [Notif.confirmationSms refreshed, Notif.confirmationEmail refreshed,
                    Notif.mailchimpSync refreshed])
        | none => (appts2, [])
      | _, _ => (appts, [])

/-- The chat cancel branch (routes.ts, /api/chat, intent "cancel"):
requires an extracted name; same lookup; on a match sets status
cancelled, re-reads, and fires the cancellation SMS (only when the
refreshed record has a phone and Twilio is configured), the
cancellation email and directory sync; otherwise no mutation and no
requests. -/
def chatCancel (env : Env) (e : Entities) (appts : List Appointment) :
    List Appointment × List Notif :=
  match e.name with
  | none => (appts, [])
  | some _ =>
    match appts.find? (matchesCustomer e) with
    | none => (appts, [])
    | some customerAppointment =>
      let appts2 := (updateAppointment appts customerAppointment.id (fun a =>
        { a with status := "cancelled" })).1
      match getAppointment appts2 customerAppointment.id with
      | some refreshed =>
        let smsPart :=
          match refreshed.customerPhone with
          | some _ => if env.twilioConfigured then [Notif.cancellationSms refreshed] else []
          | none => []
        (appts2, smsPart ++ [Notif.cancellationEmail refreshed, Notif.mailchimpSync refreshed])
      | none => (appts2, [])

/-- The chat booking branch (routes.ts, /api/chat, intent "booking"):
when name, service, date and time are all extracted, create a pending
appointment linked to the conversation with the default amount, then set
the conversation status to completed; otherwise change nothing. -/
def chatHandleBooking (isBooking : Bool) (e : Entities) (conv : Conversation)
    (appts : List Appointment) (newId : String) (now : Int) :
    List Appointment × Conversation :=
  if isBooking && e.name.isSome && e.service.isSome && e.date.isSome && e.time.isSome then
    let apt : Appointment :=
      { id := newId, conversationId := some conv.id,
        customerName := e.name.getD "", customerEmail := e.email,
        customerPhone := e.phone, service := e.service.getD "",
        date := e.date.getD "", time := e.time.getD "",
        status := "pending", amountCents := 5000, paymentStatus := "pending",
        notes := some "Booked via AI Receptionist",
        lastReminderSentAt := none, createdAt := now }
    (appts ++ [apt], { conv with status := "completed" })
  else (appts, conv)

/-- The SMS webhook booking branch (routes.ts, /api/twilio/sms/webhook,
intent "booking"): when name, service, date and time are all extracted,
create a pending appointment linked to the conversation, with the phone
taken from the inbound From number; the conversation record is not
updated in this branch. -/
def smsHandleBooking (isBooking : Bool) (e : Entities) (fromPhone : String)
    (conv : Conversation) (appts : List Appointment) (newId : String) (now : Int) :
    List Appointment × Conversation :=
  if isBooking && e.name.isSome && e.service.isSome && e.date.isSome && e.time.isSome then
    let apt : Appointment :=
      { id := newId, conversationId := some conv.id,
        customerName := e.name.getD "", customerEmail := e.email,
        customerPhone := some fromPhone, service := e.service.getD "",
        date := e.date.getD "", time := e.time.getD "",
        status := "pending", amountCents := 5000, paymentStatus := "pending",
        notes := some "Booked via SMS",
        lastReminderSentAt := none, createdAt := now }
    (appts ++ [apt], conv)
  else (appts, conv)

/-- The confirm-payment endpoint (routes.ts, POST /api/confirm-payment): update the appointment with
paymentStatus paid and status confirmed, with no check of the prior
status. Returns the new store and the updated record (none when the id
is unknown). -/
def confirmPayment (appts : List Appointment) (appointmentId : String) :
    List Appointment × Option Appointment :=
  updateAppointment appts appointmentId (fun a =>
    { a with paymentStatus := "paid", status := "confirmed" })

/-- HTTP-level outcome of the cancel endpoint. -/
inductive CancelResponse where
  | notFound404
  | alreadyCancelled400
  | ok (apt : Appointment)
  deriving Repr, DecidableEq

/-- The cancel endpoint (routes.ts, POST /api/appointments/:id/cancel): 404 when the appointment
does not exist; 400 when it is already cancelled; otherwise set status
cancelled (a completed appointment passes this guard). -/
def cancelAppointmentEndpoint (appts : List Appointment) (appointmentId : String) :
    CancelResponse × List Appointment :=
  match getAppointment appts appointmentId with
  | none => (CancelResponse.notFound404, appts)
  | some apt =>
    if apt.status == "cancelled" then
      (CancelResponse.alreadyCancelled400, appts)
    else
      let r := updateAppointment appts appointmentId (fun a =>
        { a with status := "cancelled" })
      match r.2 with
      | some updated => (CancelResponse.ok updated, r.1)
      | none => (CancelResponse.notFound404, r.1)

/-- Tags delivery-attempt events with their appointment id; the claim
write is not a delivery. -/
def deliveryId : RemEvent → Option String
  | RemEvent.claimWrite _ => none
  | RemEvent.emailAttempt i => some i
  | RemEvent.smsAttempt i => some i

/-- An event trace in which every delivery attempt for an appointment is
preceded by the claim write for that appointment. -/
def ClaimBefore (evs : List RemEvent) : Prop :=
  ∀ l1 e l2 id, evs = l1 ++ e :: l2 → deliveryId e = some id →
    RemEvent.claimWrite id ∈ l1

/-- Shape of the trace of one sendAppointmentReminder call: either empty
or a claim write followed only by delivery attempts for the same id. -/
def SegOK (tr : List RemEvent) : Prop :=
  tr = [] ∨ ∃ id rest, tr = RemEvent.claimWrite id :: rest ∧
    ∀ e ∈ rest, deliveryId e = some id

/-! ### Helper lemmas -/

lemma find?_map_update (f : Appointment → Appointment)
    (hf : ∀ a, (f a).id = a.id) (id : String) :
    ∀ (appts : List Appointment) (apt : Appointment),
      appts.find? (fun a => a.id == id) = some apt →
      (appts.map (fun b => if b.id == id then f b else b)).find?
        (fun a => a.id == id) = some (f apt) := by
  intro appts
  induction appts with
  | nil => intro apt h; simp [List.find?] at h
  | cons b bs ih =>
    intro apt h
    rw [List.find?_cons] at h
    cases hb : (b.id == id) with
    | true =>
      rw [hb] at h
      simp only at h
      injection h with h
      subst h
      have hfb : ((f b).id == id) = true := by
        rw [hf b]; exact hb
      simp only [List.map_cons, if_pos hb, List.find?_cons, hfb]
    | false =>
      rw [hb] at h
      simp only at h
      simp only [List.map_cons, hb, Bool.false_eq_true, if_false, List.find?_cons]
      exact ih apt h

lemma getAppointment_update (appts : List Appointment) (id : String)
    (f : Appointment → Appointment) (hf : ∀ a, (f a).id = a.id)
    (apt : Appointment) (h : getAppointment appts id = some apt) :
    getAppointment (updateAppointment appts id f).1 id = some (f apt) := by
  unfold getAppointment at h ⊢
  unfold updateAppointment
  rw [h]
  exact find?_map_update f hf id appts apt h

/-- The cooldown skip of sendAppointmentReminder: a fresh
lastReminderSentAt makes the whole call a normal no-op. -/
lemma skip_of_cooldown (env : Env) (appts : List Appointment) (now : Int)
    (id : String) (apt : Appointment) (t : Int)
    (h : getAppointment appts id = some apt)
    (hl : apt.lastReminderSentAt = some t) (hc : now - t < cooldownMs) :
    sendAppointmentReminder env appts now id =
      ⟨Except.ok (), appts, [], []⟩ := by
  unfold sendAppointmentReminder
  rw [h]
  by_cases hterm : (apt.status == "cancelled" || apt.status == "completed") = true
  · simp [hterm]
  · simp only [Bool.not_eq_true] at hterm
    simp only [hterm, Bool.false_eq_true, if_false]
    rw [hl]
    simp [hc]

/-- The terminal-status skip of sendAppointmentReminder. -/
lemma skip_of_terminal (env : Env) (appts : List Appointment) (now : Int)
    (id : String) (apt : Appointment)
    (h : getAppointment appts id = some apt)
    (hterm : apt.status = "cancelled" ∨ apt.status = "completed") :
    sendAppointmentReminder env appts now id =
      ⟨Except.ok (), appts, [], []⟩ := by
  unfold sendAppointmentReminder
  rw [h]
  have : (apt.status == "cancelled" || apt.status == "completed") = true := by
    rcases hterm with h1 | h1 <;> simp [h1]
  simp [this]

/-- Among a list sorted by createdAt descending, find? returns a match
with maximal createdAt. -/
lemma find?_first_max (p : Appointment → Bool) :
    ∀ (appts : List Appointment),
      List.Pairwise (fun a b => b.createdAt ≤ a.createdAt) appts →
      ∀ apt, appts.find? p = some apt →
      ∀ b ∈ appts, p b = true → b.createdAt ≤ apt.createdAt := by
  intro appts
  induction appts with
  | nil => intro _ apt h; simp [List.find?] at h
  | cons x xs ih =>
    intro hsort apt h b hb hpb
    have hx : ∀ c ∈ xs, c.createdAt ≤ x.createdAt := by
      intro c hc
      exact (List.pairwise_cons.mp hsort).1 c hc
    have hxs : List.Pairwise (fun a b => b.createdAt ≤ a.createdAt) xs :=
      (List.pairwise_cons.mp hsort).2
    rw [List.find?_cons] at h
    cases hpx : p x with
    | true =>
      rw [hpx] at h
      simp only at h
      injection h with h
      subst h
      rcases List.mem_cons.mp hb with hbx | hbxs
      · subst hbx; exact le_refl _
      · exact hx b hbxs
    | false =>
      rw [hpx] at h
      simp only at h
      rcases List.mem_cons.mp hb with hbx | hbxs
      · subst hbx; rw [hpb] at hpx; exact absurd hpx (by simp)
      · exact ih hxs apt h b hbxs hpb

/-- Each sweep run records one result per due appointment, in order,
whatever the per-appointment outcomes are. -/
lemma runSweepAux_processes (env : Env) (now : Int) :
    ∀ (due store : List Appointment),
      ((runSweepAux env now store due).2.1).map Prod.fst = due.map Appointment.id := by
  intro due
  induction due with
  | nil => intro store; rfl
  | cons apt rest ih =>
    intro store
    unfold runSweepAux
    simp [ih]

lemma claimBefore_nil : ClaimBefore [] := by
  intro l1 e l2 id hsplit
  exact absurd hsplit.symm (List.append_ne_nil_of_right_ne_nil l1 (by simp))

/-- The trace of the delivery block is the claim write followed by the
channel attempts. -/
lemma remDeliver_events (env : Env) (store : List Appointment) (now : Int)
    (id : String) (apt : Appointment) :
    (remDeliver env store now id apt).events =
      RemEvent.claimWrite id :: (emailEvents id apt ++ smsEvents env id apt) := by
  unfold remDeliver
  split <;> rfl

/-- The collected deliveryErrors of the delivery block. -/
lemma remDeliver_errors (env : Env) (store : List Appointment) (now : Int)
    (id : String) (apt : Appointment) :
    (remDeliver env store now id apt).errors =
      emailErrors env id apt ++ smsErrors env id apt := by
  unfold remDeliver
  split <;> rfl

/-- Every event of the channel-attempt tail is a delivery attempt for
the call id. -/
lemma mem_channel_events (env : Env) (id : String) (apt : Appointment) :
    ∀ e ∈ emailEvents id apt ++ smsEvents env id apt, deliveryId e = some id := by
  intro e he
  rcases List.mem_append.mp he with hmem | hmem
  · unfold emailEvents at hmem
    cases hce : apt.customerEmail with
    | none => rw [hce] at hmem; simp at hmem
    | some v =>
      rw [hce] at hmem
      simp only [List.mem_singleton] at hmem
      subst hmem; rfl
  · unfold smsEvents at hmem
    cases hcp : apt.customerPhone with
    | none => rw [hcp] at hmem; simp at hmem
    | some v =>
      rw [hcp] at hmem
      cases htw : env.twilioConfigured with
      | false => rw [htw] at hmem; simp at hmem
      | true =>
        rw [htw] at hmem
        simp only [if_true, List.mem_singleton] at hmem
        subst hmem; rfl

/-- The trace of one sendAppointmentReminder call is either empty or a
claim write followed only by delivery attempts for the same id. -/
lemma segOK_send (env : Env) (store : List Appointment) (now : Int) (id : String) :
    SegOK (sendAppointmentReminder env store now id).events := by
  unfold sendAppointmentReminder
  cases hga : getAppointment store id with
  | none => exact Or.inl rfl
  | some apt =>
    by_cases hterm : (apt.status == "cancelled" || apt.status == "completed") = true
    · simp only [hterm, if_true]
      exact Or.inl rfl
    · simp only [Bool.not_eq_true] at hterm
      simp only [hterm, Bool.false_eq_true, if_false]
      have hdel : SegOK (remDeliver env store now id apt).events :=
        Or.inr ⟨id, emailEvents id apt ++ smsEvents env id apt,
          remDeliver_events env store now id apt, mem_channel_events env id apt⟩
      cases hl : apt.lastReminderSentAt with
      | none => exact hdel
      | some t =>
        by_cases hc : now - t < cooldownMs
        · simp only [hc, if_true]
          exact Or.inl rfl
        · simp only [hc, if_false]
          exact hdel

/-- Prepending a well-shaped segment preserves the claim-before-delivery
property of a trace. -/
lemma claimBefore_append (s t : List RemEvent) (hs : SegOK s)
    (ht : ClaimBefore t) : ClaimBefore (s ++ t) := by
  intro l1 e l2 id hsplit hdel
  rcases hs with hnil | ⟨id0, rest, hseq, hrest⟩
  · subst hnil
    rw [List.nil_append] at hsplit
    exact ht l1 e l2 id hsplit hdel
  · subst hseq
    cases l1 with
    | nil =>
      rw [List.nil_append] at hsplit
      rw [List.cons_append] at hsplit
      injection hsplit with h1 _
      rw [← h1] at hdel
      simp [deliveryId] at hdel
    | cons x l1' =>
      rw [List.cons_append, List.cons_append] at hsplit
      injection hsplit with hx hrt
      rcases List.append_eq_append_iff.mp hrt with ⟨m, hm1, hm2⟩ | ⟨m, hm1, hm2⟩
      · -- hm1 : l1' = rest ++ m, hm2 : t = m ++ e :: l2
        have hmem := ht m e l2 id hm2 hdel
        have hmem2 : RemEvent.claimWrite id ∈ l1' := by
          rw [hm1]
          exact List.mem_append.mpr (Or.inr hmem)
        exact List.mem_cons_of_mem _ hmem2
      · -- hm1 : rest = l1' ++ m, hm2 : e :: l2 = m ++ t
        cases m with
        | nil =>
          rw [List.nil_append] at hm2
          have := ht [] e l2 id (by rw [List.nil_append]; exact hm2.symm) hdel
          simp at this
        | cons e2 m2 =>
          rw [List.cons_append] at hm2
          injection hm2 with he _
          have hem : e ∈ rest := by
            rw [hm1, he]
            exact List.mem_append.mpr (Or.inr (List.mem_cons_self _ _))
          have hid : deliveryId e = some id0 := hrest e hem
          rw [hdel] at hid
          injection hid with hid
          rw [← hx, hid]
          exact List.mem_cons_self _ _

lemma smsEvents_indep (env1 env2 : Env)
    (h : env1.twilioConfigured = env2.twilioConfigured) (id : String)
    (apt : Appointment) : smsEvents env1 id apt = smsEvents env2 id apt := by
  unfold smsEvents
  cases apt.customerPhone <;> simp [h]

/-- The delivery attempts of a reminder call do not depend on the email
or SMS transport outcomes, only on which addresses are present and on
the Twilio configuration. -/
lemma events_indep (env1 env2 : Env)
    (h : env1.twilioConfigured = env2.twilioConfigured)
    (store : List Appointment) (now : Int) (id : String) :
    (sendAppointmentReminder env1 store now id).events =
      (sendAppointmentReminder env2 store now id).events := by
  unfold sendAppointmentReminder
  cases hga : getAppointment store id with
  | none => rfl
  | some apt =>
    by_cases hterm : (apt.status == "cancelled" || apt.status == "completed") = true
    · simp [hterm]
    · simp only [Bool.not_eq_true] at hterm
      simp only [hterm, Bool.false_eq_true, if_false]
      have hrd : (remDeliver env1 store now id apt).events =
          (remDeliver env2 store now id apt).events := by
        rw [remDeliver_events, remDeliver_events, smsEvents_indep env1 env2 h]
      cases hl : apt.lastReminderSentAt with
      | none => exact hrd
      | some t =>
        dsimp only
        by_cases hc : now - t < cooldownMs
        · rw [if_pos hc, if_pos hc]
        · rw [if_neg hc, if_neg hc]; exact hrd

/-- A reminder call either produces no events at all (skip or missing
id) or behaves as the delivery block on the fetched appointment. -/
lemma send_cases (env : Env) (store : List Appointment) (now : Int) (id : String) :
    (sendAppointmentReminder env store now id).events = [] ∨
    ∃ apt, getAppointment store id = some apt ∧
      sendAppointmentReminder env store now id = remDeliver env store now id apt := by
  unfold sendAppointmentReminder
  cases hga : getAppointment store id with
  | none => exact Or.inl rfl
  | some apt =>
    by_cases hterm : (apt.status == "cancelled" || apt.status == "completed") = true
    · simp [hterm]
    · simp only [Bool.not_eq_true] at hterm
      simp only [hterm, Bool.false_eq_true, if_false]
      cases hl : apt.lastReminderSentAt with
      | none => exact Or.inr ⟨apt, rfl, rfl⟩
      | some t =>
        dsimp only
        by_cases hc : now - t < cooldownMs
        · simp [hc]
        · rw [if_neg hc]; exact Or.inr ⟨apt, rfl, rfl⟩

/-- A caught email failure is recorded in deliveryErrors whenever the
email channel was attempted. -/
lemma email_failure_recorded (env : Env) (store : List Appointment) (now : Int)
    (id : String) (hfail : env.emailOk id = false)
    (hmem : RemEvent.emailAttempt id ∈ (sendAppointmentReminder env store now id).events) :
    "email" ∈ (sendAppointmentReminder env store now id).errors := by
  rcases send_cases env store now id with hnil | ⟨apt, hga, heq⟩
  · rw [hnil] at hmem; simp at hmem
  · rw [heq] at hmem ⊢
    rw [remDeliver_events] at hmem
    rw [remDeliver_errors]
    rcases List.mem_cons.mp hmem with hx | hx
    · exact absurd hx (by simp)
    · rcases List.mem_append.mp hx with hy | hy
      · unfold emailEvents at hy
        cases hce : apt.customerEmail with
        | none => rw [hce] at hy; simp at hy
        | some v =>
          apply List.mem_append.mpr
          left
          unfold emailErrors
          rw [hce, hfail]
          simp
      · unfold smsEvents at hy
        cases hcp : apt.customerPhone with
        | none => rw [hcp] at hy; simp at hy
        | some v =>
          rw [hcp] at hy
          cases htw : env.twilioConfigured with
          | false => rw [htw] at hy; simp at hy
          | true => rw [htw] at hy; simp at hy

/-- A caught SMS failure is recorded in deliveryErrors whenever the SMS
channel was attempted. -/
lemma sms_failure_recorded (env : Env) (store : List Appointment) (now : Int)
    (id : String) (hfail : env.smsOk id = false)
    (hmem : RemEvent.smsAttempt id ∈ (sendAppointmentReminder env store now id).events) :
    "sms" ∈ (sendAppointmentReminder env store now id).errors := by
  rcases send_cases env store now id with hnil | ⟨apt, hga, heq⟩
  · rw [hnil] at hmem; simp at hmem
  · rw [heq] at hmem ⊢
    rw [remDeliver_events] at hmem
    rw [remDeliver_errors]
    rcases List.mem_cons.mp hmem with hx | hx
    · exact absurd hx (by simp)
    · rcases List.mem_append.mp hx with hy | hy
      · unfold emailEvents at hy
        cases hce : apt.customerEmail with
        | none => rw [hce] at hy; simp at hy
        | some v => rw [hce] at hy; simp at hy
      · unfold smsEvents at hy
        cases hcp : apt.customerPhone with
        | none => rw [hcp] at hy; simp at hy
        | some v =>
          rw [hcp] at hy
          cases htw : env.twilioConfigured with
          | false => rw [htw] at hy; simp at hy
          | true =>
            apply List.mem_append.mpr
            right
            unfold smsErrors
            rw [hcp, htw, hfail]
            simp

/-- A reminder call on a present, non-terminal, cooldown-expired
appointment runs the delivery block. -/
lemma send_reaches_deliver (env : Env) (appts : List Appointment) (now : Int)
    (id : String) (apt : Appointment)
    (h : getAppointment appts id = some apt)
    (hs1 : apt.status ≠ "cancelled") (hs2 : apt.status ≠ "completed")
    (hcool : ∀ t, apt.lastReminderSentAt = some t → cooldownMs ≤ now - t) :
    sendAppointmentReminder env appts now id = remDeliver env appts now id apt := by
  unfold sendAppointmentReminder
  rw [h]
  have hterm : (apt.status == "cancelled" || apt.status == "completed") = false := by
    simp [hs1, hs2]
  simp only [hterm, Bool.false_eq_true, if_false]
  cases hl : apt.lastReminderSentAt with
  | none => rfl
  | some t =>
    dsimp only
    rw [if_neg (not_lt.mpr (hcool t hl))]

lemma claimBefore_of_segOK (s : List RemEvent) (hs : SegOK s) : ClaimBefore s := by
  have h := claimBefore_append s [] hs claimBefore_nil
  rwa [List.append_nil] at h

/-- The whole event trace of a sweep run keeps every delivery attempt
after the corresponding claim write. -/
lemma claimBefore_sweepAux (env : Env) (now : Int) :
    ∀ (due store : List Appointment),
      ClaimBefore (runSweepAux env now store due).2.2 := by
  intro due
  induction due with
  | nil => intro store; exact claimBefore_nil
  | cons apt rest ih =>
    intro store
    unfold runSweepAux
    exact claimBefore_append _ _ (segOK_send env store now apt.id) (ih _)

/-! ### Concrete fixtures for witnesses and counterexamples -/

/-- All transports succeed, Twilio configured, every date due. -/
def envAllOk : Env :=
  ⟨fun _ => true, fun _ => true, true, fun _ => true⟩

/-- Both transports fail on every call; Twilio configured. -/
def envAllFail : Env :=
  ⟨fun _ => false, fun _ => false, true, fun _ => true⟩

/-- Email transport fails, SMS succeeds. -/
def envEmailFail : Env :=
  ⟨fun _ => false, fun _ => true, true, fun _ => true⟩

/-- A pending, contactable appointment with no reminder sent yet. -/
def baseApt : Appointment :=
  { id := "apt-1", conversationId := none, customerName := "Jane Doe",
    customerEmail := some "jane@example.com",
    customerPhone := some "+15551234567", service := "Consult",
    date := "2025-03-10", time := "14:00", status := "pending",
    amountCents := 5000, paymentStatus := "pending", notes := none,
    lastReminderSentAt := none, createdAt := 100 }

/-- Like baseApt but with a reminder claimed at time 1000. -/
def aptRecent : Appointment :=
  { baseApt with lastReminderSentAt := some 1000 }

/-- Like baseApt but with neither email nor phone. -/
def aptNoContact : Appointment :=
  { baseApt with customerEmail := none, customerPhone := none }

/-- A cancelled appointment. -/
def cancelledApt : Appointment :=
  { baseApt with id := "apt-8", status := "cancelled" }

/-- The earlier-created pending appointment of the recency scenario. -/
def aptPendingEarly : Appointment :=
  { baseApt with id := "apt-old", status := "pending", createdAt := 100 }

/-- The later-created confirmed appointment of the recency scenario,
same phone number. -/
def aptConfirmedLate : Appointment :=
  { baseApt with id := "apt-new", status := "confirmed", createdAt := 200 }

/-- Entities matching baseApt by name. -/
def eJane : Entities :=
  ⟨some "Jane Doe", none, none, none, some "2025-03-12", some "15:00"⟩

/-- Entities matching no stored appointment. -/
def eJohn : Entities :=
  ⟨some "John Smith", none, none, none, some "2025-03-12", some "15:00"⟩

/-- Entities matching by phone number only. -/
def ePhone : Entities :=
  ⟨some "Somebody Else", none, some "+15551234567", none, some "2025-03-12", some "15:00"⟩

/-- Complete booking entities. -/
def eFull : Entities :=
  ⟨some "Jane Doe", some "jane@example.com", none, some "Consult",
   some "2025-03-10", some "14:00"⟩

/-- An active conversation. -/
def conv0 : Conversation :=
  ⟨"conv-1", "active", "neutral", "booking", some "Jane Doe", none, none⟩

/-! ### Claim theorems -/

/-- C1: on the reminder path (manual sendAppointmentReminder and the
periodic sweep), every delivery attempt on any channel is preceded in
the event trace by the claim write of lastReminderSentAt for that
appointment: no send is attempted before the store write. -/
theorem c1_claim_write_precedes_delivery :
    (∀ env store now id,
      ClaimBefore (sendAppointmentReminder env store now id).events) ∧
    (∀ env store now,
      ClaimBefore (scheduleRemindersForUpcomingAppointments env store now).2.2) := by
  constructor
  · intro env store now id
    exact claimBefore_of_segOK _ (segOK_send env store now id)
  · intro env store now
    unfold scheduleRemindersForUpcomingAppointments
    exact claimBefore_sweepAux env now _ store

/-- Witness for C1 at a concrete input: the trace of a reminder call on
a contactable appointment is the claim write followed by both delivery
attempts, and the claim write precedes the email attempt. -/
theorem c1_claim_write_precedes_delivery_witness :
    (sendAppointmentReminder envAllOk [baseApt] 0 "apt-1").events =
      [RemEvent.claimWrite "apt-1", RemEvent.emailAttempt "apt-1",
       RemEvent.smsAttempt "apt-1"] ∧
    RemEvent.claimWrite "apt-1" ∈ [RemEvent.claimWrite "apt-1"] :=
  ⟨by decide,
   c1_claim_write_precedes_delivery.1 envAllOk [baseApt] 0 "apt-1"
     [RemEvent.claimWrite "apt-1"] (RemEvent.emailAttempt "apt-1")
     [RemEvent.smsAttempt "apt-1"] "apt-1" (by decide) rfl⟩

/-- C2: when the fetched appointment has lastReminderSentAt set less
than 12 hours before now, the reminder call is a normal no-op: it
returns ok, leaves the store unchanged, attempts no delivery and
records no error. Both the manual endpoint and the sweep invoke exactly
this function per appointment. -/
theorem c2_cooldown_noop (env : Env) (appts : List Appointment) (now : Int)
    (id : String) (apt : Appointment) (t : Int)
    (h : getAppointment appts id = some apt)
    (hl : apt.lastReminderSentAt = some t) (hc : now - t < cooldownMs) :
    sendAppointmentReminder env appts now id = ⟨Except.ok (), appts, [], []⟩ :=
  skip_of_cooldown env appts now id apt t h hl hc

/-- Witness for C2: a reminder claimed at time 1000 and retried at time
2000 is skipped without store write, delivery or error. -/
theorem c2_cooldown_noop_witness :
    sendAppointmentReminder envAllOk [aptRecent] 2000 "apt-1" =
      ⟨Except.ok (), [aptRecent], [], []⟩ :=
  c2_cooldown_noop envAllOk [aptRecent] 2000 "apt-1" aptRecent 1000
    (by decide) (by decide) (by decide)

/-- C3: a sweep run records one processed result for every due
appointment, in order, for every environment including ones in which
any subset of the per-appointment deliveries fail; hence a failure on
one appointment never prevents the processing of a later one, and the
sweep itself returns normally (its result type carries no error). -/
theorem c3_sweep_fault_isolation :
    ∀ env store now,
      ((scheduleRemindersForUpcomingAppointments env store now).2.1).map Prod.fst =
        (dueAppointments env store).map Appointment.id ∧
      ∀ a ∈ dueAppointments env store, ∃ r,
        (a.id, r) ∈ (scheduleRemindersForUpcomingAppointments env store now).2.1 := by
  intro env store now
  have heq : scheduleRemindersForUpcomingAppointments env store now =
      runSweepAux env now store (dueAppointments env store) := rfl
  have hmap := runSweepAux_processes env now (dueAppointments env store) store
  rw [heq]
  refine ⟨hmap, ?_⟩
  intro a ha
  have hin : a.id ∈ (dueAppointments env store).map Appointment.id :=
    List.mem_map_of_mem _ ha
  rw [← hmap] at hin
  rcases List.mem_map.mp hin with ⟨p, hp, hfst⟩
  refine ⟨p.2, ?_⟩
  rw [← hfst]
  exact hp

/-- Witness for C3: with one due appointment and all transports failing,
the sweep still records its result. -/
theorem c3_sweep_fault_isolation_witness :
    ((scheduleRemindersForUpcomingAppointments envAllFail [baseApt] 0).2.1).map Prod.fst =
      ["apt-1"] ∧
    ∃ r, ("apt-1", r) ∈ (scheduleRemindersForUpcomingAppointments envAllFail [baseApt] 0).2.1 := by
  have h := c3_sweep_fault_isolation envAllFail [baseApt] 0
  refine ⟨?_, h.2 baseApt (by decide)⟩
  rw [h.1]
  decide

/-- C4: across the email and SMS channels of a reminder dispatch, the
set of delivery attempts does not depend on either transport outcome
(so one channel failing neither prevents nor alters the attempt on the
other), and a failing attempted channel is captured and recorded in
deliveryErrors instead of being re-raised between channels. -/
theorem c4_channel_isolation :
    ∀ env1 env2 : Env, env1.twilioConfigured = env2.twilioConfigured →
    ∀ store now id,
      ((sendAppointmentReminder env1 store now id).events =
        (sendAppointmentReminder env2 store now id).events) ∧
      (env1.emailOk id = false →
        RemEvent.emailAttempt id ∈ (sendAppointmentReminder env1 store now id).events →
        "email" ∈ (sendAppointmentReminder env1 store now id).errors) ∧
      (env1.smsOk id = false →
        RemEvent.smsAttempt id ∈ (sendAppointmentReminder env1 store now id).events →
        "sms" ∈ (sendAppointmentReminder env1 store now id).errors) := by
  intro env1 env2 htw store now id
  exact ⟨events_indep env1 env2 htw store now id,
    fun hf hm => email_failure_recorded env1 store now id hf hm,
    fun hf hm => sms_failure_recorded env1 store now id hf hm⟩

/-- Witness for C4: with the email transport failing and SMS working,
the attempts are identical to the all-ok run (the SMS attempt still
happens) and the email failure is recorded. -/
theorem c4_channel_isolation_witness :
    ((sendAppointmentReminder envEmailFail [baseApt] 0 "apt-1").events =
      (sendAppointmentReminder envAllOk [baseApt] 0 "apt-1").events) ∧
    "email" ∈ (sendAppointmentReminder envEmailFail [baseApt] 0 "apt-1").errors := by
  have h := c4_channel_isolation envEmailFail envAllOk rfl [baseApt] 0 "apt-1"
  exact ⟨h.1, h.2.1 rfl (by decide)⟩

/-- C5: when every attempted delivery channel of a reminder call fails
(and at least one channel was attempted), the call raises the aggregate
deliveryFailed error to its caller instead of returning ok. The manual
/api/reminders/send endpoint surfaces exactly this thrown error. -/
theorem c5_all_channels_failed_raises (env : Env) (store : List Appointment)
    (now : Int) (id : String)
    (he : RemEvent.emailAttempt id ∈ (sendAppointmentReminder env store now id).events →
      env.emailOk id = false)
    (hs : RemEvent.smsAttempt id ∈ (sendAppointmentReminder env store now id).events →
      env.smsOk id = false)
    (hmem : ∃ e ∈ (sendAppointmentReminder env store now id).events,
      (deliveryId e).isSome = true) :
    ∃ n, 0 < n ∧ (sendAppointmentReminder env store now id).result =
      Except.error (RemError.deliveryFailed n) := by
  rcases send_cases env store now id with hnil | ⟨apt, hga, heq⟩
  · rw [hnil] at hmem
    simp at hmem
  · rw [heq] at hmem he hs ⊢
    obtain ⟨e, hein, hsome⟩ := hmem
    rw [remDeliver_events] at hein
    rcases List.mem_cons.mp hein with hx | hx
    · rw [hx] at hsome
      simp [deliveryId] at hsome
    · have hne : emailErrors env id apt ++ smsErrors env id apt ≠ [] := by
        rcases List.mem_append.mp hx with hy | hy
        · unfold emailEvents at hy
          cases hce : apt.customerEmail with
          | none => rw [hce] at hy; simp at hy
          | some v =>
            rw [hce] at hy
            simp only [List.mem_singleton] at hy
            have hmema : RemEvent.emailAttempt id ∈ (remDeliver env store now id apt).events := by
              rw [remDeliver_events, ← hy]
              exact hein
            have hfail := he hmema
            unfold emailErrors
            rw [hce, hfail]
            simp
        · unfold smsEvents at hy
          cases hcp : apt.customerPhone with
          | none => rw [hcp] at hy; simp at hy
          | some v =>
            rw [hcp] at hy
            cases htw : env.twilioConfigured with
            | false => rw [htw] at hy; simp at hy
            | true =>
              rw [htw] at hy
              simp only [if_true, List.mem_singleton] at hy
              have hmema : RemEvent.smsAttempt id ∈ (remDeliver env store now id apt).events := by
                rw [remDeliver_events, ← hy]
                exact hein
              have hfail := hs hmema
              unfold smsErrors
              rw [hcp, htw, hfail]
              simp
      rcases List.exists_cons_of_ne_nil hne with ⟨b, L, hbL⟩
      refine ⟨(emailErrors env id apt ++ smsErrors env id apt).length, ?_, ?_⟩
      · rw [hbL]; simp
      · unfold remDeliver
        rw [if_neg (by rw [hbL]; simp)]

/-- Witness for C5: both channels fail on a contactable appointment and
the call returns the aggregate error for the two channels. -/
theorem c5_all_channels_failed_raises_witness :
    ∃ n, 0 < n ∧ (sendAppointmentReminder envAllFail [baseApt] 0 "apt-1").result =
      Except.error (RemError.deliveryFailed n) :=
  c5_all_channels_failed_raises envAllFail [baseApt] 0 "apt-1"
    (fun _ => rfl) (fun _ => rfl)
    ⟨RemEvent.emailAttempt "apt-1", by decide, rfl⟩

/-- C6: the reschedule and cancel lookups scan getAllAppointments with
find; DatabaseStorage.getAllAppointments orders rows by createdAt
descending, so on such a list the selected appointment is a matching
non-terminal one with maximal createdAt among all matches. -/
theorem c6_lookup_most_recent (e : Entities) (appts : List Appointment)
    (apt : Appointment)
    (hsorted : List.Pairwise (fun a b => b.createdAt ≤ a.createdAt) appts)
    (hfind : appts.find? (matchesCustomer e) = some apt) :
    matchesCustomer e apt = true ∧
    ∀ b ∈ appts, matchesCustomer e b = true → b.createdAt ≤ apt.createdAt :=
  ⟨List.find?_some hfind,
   find?_first_max (matchesCustomer e) appts hsorted apt hfind⟩

/-- Witness for C6, the spec scenario: two appointments share a phone
number, the earlier-created one pending and the later-created one
confirmed; on the createdAt-descending list the lookup picks the
later-created one. -/
theorem c6_lookup_most_recent_witness :
    [aptConfirmedLate, aptPendingEarly].find? (matchesCustomer ePhone) =
      some aptConfirmedLate ∧
    matchesCustomer ePhone aptConfirmedLate = true ∧
    ∀ b ∈ [aptConfirmedLate, aptPendingEarly],
      matchesCustomer ePhone b = true → b.createdAt ≤ aptConfirmedLate.createdAt := by
  have h := c6_lookup_most_recent ePhone [aptConfirmedLate, aptPendingEarly]
    aptConfirmedLate (by decide) (by decide)
  exact ⟨by decide, h.1, h.2⟩

/-- C7: a reschedule or cancel intent whose entities match no
non-terminal appointment is a silent no-op: the appointment list is
returned unchanged and no notification request is produced (and the
handlers return normally, their result type carrying no error). -/
theorem c7_no_match_noop (env : Env) (e : Entities) (appts : List Appointment)
    (h : appts.find? (matchesCustomer e) = none) :
    chatReschedule e appts = (appts, []) ∧ chatCancel env e appts = (appts, []) := by
  constructor
  · unfold chatReschedule
    cases e.name with
    | none => rfl
    | some n => rw [h]
  · unfold chatCancel
    cases e.name with
    | none => rfl
    | some n => rw [h]

/-- Witness for C7: a cancel or reschedule intent for John Smith against
a store holding only the Jane Doe appointment changes nothing and fires
nothing. -/
theorem c7_no_match_noop_witness :
    chatReschedule eJohn [baseApt] = ([baseApt], []) ∧
    chatCancel envAllOk eJohn [baseApt] = ([baseApt], []) :=
  c7_no_match_noop envAllOk eJohn [baseApt] (by decide)

/-- A completed appointment, for the terminality counterexample. -/
def completedApt : Appointment :=
  { baseApt with id := "apt-7", status := "completed" }

/-- Counterexample to C8: the confirm-payment endpoint writes status
confirmed onto a cancelled appointment, and the cancel endpoint writes
status cancelled onto a completed appointment, so cancelled and
completed are not terminal under every operation. -/
theorem c8_terminality_counterexample :
    cancelledApt.status = "cancelled" ∧
    (confirmPayment [cancelledApt] "apt-8").2.map Appointment.status =
      some "confirmed" ∧
    completedApt.status = "completed" ∧
    (getAppointment (cancelAppointmentEndpoint [completedApt] "apt-7").2 "apt-7").map
      Appointment.status = some "cancelled" := by
  decide

/-- C8 as amended: terminal appointments are excluded from the chat/SMS
reschedule and cancel lookups and the reminder path skips them without
writing, and the cancel endpoint rejects an already-cancelled
appointment; but the confirm-payment endpoint writes status confirmed
with no check of the prior status (and the cancel endpoint accepts a
completed appointment), so terminality is not enforced on the direct
API paths. -/
theorem c8_terminality_amended (env : Env) (e : Entities)
    (appts : List Appointment) (now : Int) (id : String) (apt : Appointment) :
    (appts.find? (matchesCustomer e) = some apt →
      apt.status ≠ "cancelled" ∧ apt.status ≠ "completed") ∧
    (getAppointment appts id = some apt →
      (apt.status = "cancelled" ∨ apt.status = "completed") →
      sendAppointmentReminder env appts now id = ⟨Except.ok (), appts, [], []⟩) ∧
    (getAppointment appts id = some apt → apt.status = "cancelled" →
      cancelAppointmentEndpoint appts id = (CancelResponse.alreadyCancelled400, appts)) ∧
    (getAppointment appts id = some apt →
      (confirmPayment appts id).2.map Appointment.status = some "confirmed") := by
  refine ⟨?_, ?_, ?_, ?_⟩
  · intro hfind
    have hp := List.find?_some hfind
    unfold matchesCustomer at hp
    simp only [Bool.and_eq_true, Bool.not_eq_true', beq_eq_false_iff_ne] at hp
    exact ⟨hp.1.1, hp.1.2⟩
  · intro h hterm
    exact skip_of_terminal env appts now id apt h hterm
  · intro h hst
    unfold cancelAppointmentEndpoint
    rw [h]
    have : (apt.status == "cancelled") = true := by simp [hst]
    simp [this]
  · intro h
    unfold getAppointment at h
    unfold confirmPayment updateAppointment
    rw [h]
    rfl

/-- Witness for the amended C8 at concrete inputs: the lookup picks the
pending appointment and reports it non-terminal, the reminder path
skips the cancelled appointment untouched, the cancel endpoint rejects
it, and confirm-payment still flips it to confirmed. -/
theorem c8_terminality_amended_witness :
    (baseApt.status ≠ "cancelled" ∧ baseApt.status ≠ "completed") ∧
    sendAppointmentReminder envAllOk [cancelledApt] 0 "apt-8" =
      ⟨Except.ok (), [cancelledApt], [], []⟩ ∧
    cancelAppointmentEndpoint [cancelledApt] "apt-8" =
      (CancelResponse.alreadyCancelled400, [cancelledApt]) ∧
    (confirmPayment [cancelledApt] "apt-8").2.map Appointment.status =
      some "confirmed" := by
  have hbase := (c8_terminality_amended envAllOk eJane [baseApt] 0 "apt-1" baseApt).1
    (by decide)
  have hcan := c8_terminality_amended envAllOk eJane [cancelledApt] 0 "apt-8" cancelledApt
  exact ⟨hbase, hcan.2.1 (by decide) (Or.inl rfl), hcan.2.2.1 (by decide) rfl,
    hcan.2.2.2 (by decide)⟩

/-- Counterexample to C9: on the SMS webhook channel, a booking intent
with complete entities creates an appointment linked to the originating
conversation, but the conversation status stays active, not completed. -/
theorem c9_sms_booking_leaves_conversation_active :
    (smsHandleBooking true eFull "+15551234567" conv0 [] "apt-9" 0).2.status = "active" ∧
    (smsHandleBooking true eFull "+15551234567" conv0 [] "apt-9" 0).1.length = 1 ∧
    (∀ a ∈ (smsHandleBooking true eFull "+15551234567" conv0 [] "apt-9" 0).1,
      a.conversationId = some "conv-1") ∧
    ("active" : String) ≠ "completed" := by
  decide

/-- C9 as amended: a booking intent with complete entities creates an
appointment linked to the conversation on both channels, but only the
web chat handler sets the originating conversation status to completed;
the SMS webhook handler leaves the conversation record unchanged. -/
theorem c9_booking_completes_conversation_chat_only (e : Entities)
    (fromPhone : String) (conv : Conversation) (appts : List Appointment)
    (newId : String) (now : Int)
    (h1 : e.name.isSome = true) (h2 : e.service.isSome = true)
    (h3 : e.date.isSome = true) (h4 : e.time.isSome = true) :
    ((chatHandleBooking true e conv appts newId now).2.status = "completed" ∧
     ∃ apt, (chatHandleBooking true e conv appts newId now).1 = appts ++ [apt] ∧
       apt.conversationId = some conv.id) ∧
    ((smsHandleBooking true e fromPhone conv appts newId now).2 = conv ∧
     ∃ apt, (smsHandleBooking true e fromPhone conv appts newId now).1 = appts ++ [apt] ∧
       apt.conversationId = some conv.id) := by
  have hcond : (true && e.name.isSome && e.service.isSome && e.date.isSome &&
      e.time.isSome) = true := by
    rw [h1, h2, h3, h4]
    rfl
  constructor
  · unfold chatHandleBooking
    rw [hcond]
    exact ⟨rfl, ⟨_, rfl, rfl⟩⟩
  · unfold smsHandleBooking
    rw [hcond]
    exact ⟨rfl, ⟨_, rfl, rfl⟩⟩

/-- Witness for the amended C9 at concrete inputs. -/
theorem c9_booking_completes_conversation_chat_only_witness :
    ((chatHandleBooking true eFull conv0 [] "apt-9" 0).2.status = "completed" ∧
     ∃ apt, (chatHandleBooking true eFull conv0 [] "apt-9" 0).1 = [] ++ [apt] ∧
       apt.conversationId = some conv0.id) ∧
    ((smsHandleBooking true eFull "+15551234567" conv0 [] "apt-9" 0).2 = conv0 ∧
     ∃ apt, (smsHandleBooking true eFull "+15551234567" conv0 [] "apt-9" 0).1 = [] ++ [apt] ∧
       apt.conversationId = some conv0.id) :=
  c9_booking_completes_conversation_chat_only eFull "+15551234567" conv0 [] "apt-9" 0
    rfl rfl rfl rfl

/-- C10: a non-terminal appointment with neither email nor phone and an
expired (or absent) cooldown still gets the lastReminderSentAt claim
write, returns ok with no delivery attempt and no error, and any
further reminder call inside the next 12 hours is then a no-op. -/
theorem c10_uncontactable_consumes_cooldown (env : Env)
    (appts : List Appointment) (now : Int) (id : String) (apt : Appointment)
    (h : getAppointment appts id = some apt)
    (hs1 : apt.status ≠ "cancelled") (hs2 : apt.status ≠ "completed")
    (he : apt.customerEmail = none) (hp : apt.customerPhone = none)
    (hcool : ∀ t, apt.lastReminderSentAt = some t → cooldownMs ≤ now - t) :
    (sendAppointmentReminder env appts now id).result = Except.ok () ∧
    (sendAppointmentReminder env appts now id).events = [RemEvent.claimWrite id] ∧
    getAppointment (sendAppointmentReminder env appts now id).store id =
      some { apt with lastReminderSentAt := some now } ∧
    ∀ now2, now2 - now < cooldownMs →
      sendAppointmentReminder env (sendAppointmentReminder env appts now id).store now2 id =
        ⟨Except.ok (), (sendAppointmentReminder env appts now id).store, [], []⟩ := by
  have hred := send_reaches_deliver env appts now id apt h hs1 hs2 hcool
  have hee : emailEvents id apt = [] := by unfold emailEvents; rw [he]
  have hse : smsEvents env id apt = [] := by unfold smsEvents; rw [hp]
  have heer : emailErrors env id apt = [] := by unfold emailErrors; rw [he]
  have hser : smsErrors env id apt = [] := by unfold smsErrors; rw [hp]
  have hrd : remDeliver env appts now id apt =
      ⟨Except.ok (),
       (updateAppointment appts id (fun a => { a with lastReminderSentAt := some now })).1,
       [RemEvent.claimWrite id], []⟩ := by
    unfold remDeliver
    rw [heer, hser, hee, hse]
    rfl
  rw [hred, hrd]
  have hga2 : getAppointment
      ((updateAppointment appts id (fun a => { a with lastReminderSentAt := some now })).1) id =
      some { apt with lastReminderSentAt := some now } :=
    getAppointment_update appts id
      (fun a => { a with lastReminderSentAt := some now }) (fun a => rfl) apt h
  refine ⟨rfl, rfl, hga2, ?_⟩
  intro now2 hlt
  exact skip_of_cooldown env _ now2 id { apt with lastReminderSentAt := some now } now
    hga2 rfl hlt

/-- Witness for C10: the uncontactable appointment is claimed at time
500, its stored record carries the new timestamp, and a retry at time
600 is skipped. -/
theorem c10_uncontactable_consumes_cooldown_witness :
    (sendAppointmentReminder envAllOk [aptNoContact] 500 "apt-1").result = Except.ok () ∧
    (sendAppointmentReminder envAllOk [aptNoContact] 500 "apt-1").events =
      [RemEvent.claimWrite "apt-1"] ∧
    getAppointment (sendAppointmentReminder envAllOk [aptNoContact] 500 "apt-1").store "apt-1" =
      some { aptNoContact with lastReminderSentAt := some 500 } ∧
    sendAppointmentReminder envAllOk
        (sendAppointmentReminder envAllOk [aptNoContact] 500 "apt-1").store 600 "apt-1" =
      ⟨Except.ok (),
       (sendAppointmentReminder envAllOk [aptNoContact] 500 "apt-1").store, [], []⟩ := by
  have h := c10_uncontactable_consumes_cooldown envAllOk [aptNoContact] 500 "apt-1"
    aptNoContact (by decide) (by decide) (by decide) rfl rfl
    (fun t ht => Option.noConfusion ht)
  exact ⟨h.1, h.2.1, h.2.2.1, h.2.2.2 600 (by decide)⟩

end AIReceptionist
